import Mathlib

set_option autoImplicit false

/-!
Verification of the chat page `src/pages/chat.tsx` of the ai-lawyer-fe
repository.  The page is a React component; its state hooks become the
fields of `ChatState`, the browser `localStorage` content becomes
`Storage`, and each handler or effect becomes a Lean function from the
old state (and the inputs the browser supplies: the clock, the HTTP
response) to the new state.  JSON (de)serialization for `localStorage`
is left implicit: the store holds the parsed values.  JavaScript
objects keyed by strings are modelled as association lists in key
insertion order, which is also the `Object.entries` iteration order
for the non-integer keys used here.
-/

namespace AiLawyer

/-- A chat thread entry, `{ id, title, date }` in `chat.tsx`. -/
structure Chat where
  id : String
  title : String
  date : String
  deriving Repr, DecidableEq

/-- The `sender` field of `type Message = { sender: "user" | "ai"; text: string }`. -/
inductive Sender where
  | user
  | ai
  deriving Repr, DecidableEq

/-- `type Message = { sender: "user" | "ai"; text: string }` (chat.tsx lines 21-24). -/
structure Message where
  sender : Sender
  text : String
  deriving Repr, DecidableEq

/-- JS object lookup `obj[k]` on a string-keyed object, modelled as an
association list: the value at the first matching key, else `none`
(JS `undefined`). -/
def assocGet {β : Type} : List (String × β) → String → Option β
  | [], _ => none
  | (k', v) :: rest, k => if k' = k then some v else assocGet rest k

/-- JS object assignment `obj[k] = v`: replace the value when the key is
present, otherwise append the new key at the end (JS string-key
insertion order). -/
def assocSet {β : Type} : List (String × β) → String → β → List (String × β)
  | [], k, v => [(k, v)]
  | (k', v') :: rest, k, v =>
    if k' = k then (k', v) :: rest else (k', v') :: assocSet rest k v

/-- The `localStorage` content the page uses: the parsed value of the
`"chats"` key (default `[]`) and of the `"history"` key (default `{}`),
the latter a map from chat id to a history array. -/
structure Storage where
  chats : List Chat
  histories : List (String × List (List String))
  deriving Repr, DecidableEq

/-- The component state of `ChatPage` (chat.tsx lines 27-35): the
`useState` hooks in order.  `messageEndRef` is a DOM ref with no state
content and is omitted. -/
structure ChatState where
  messages : List Message
  message : String
  history : List (List String)
  chats : List Chat
  currentChatId : String
  loading : Bool
  loadingChats : Bool
  deriving Repr, DecidableEq

/-- Modelled from the spec: `API_BASE_URL` is imported from
`@/utils/constants`, a file not present in the source tree; the spec
only describes the backend as "an external, unspecified backend", so
the base URL is an uninterpreted constant. -/
def API_BASE_URL : String := "API_BASE_URL"

/-- One HTTP request issued by the page: the URL and the body
`{ question, history }` of the axios POST (chat.tsx lines 88-91). -/
structure Request where
  url : String
  question : String
  history : List (List String)
  deriving Repr, DecidableEq

/-- The outcome of the awaited `axios.post`: `ok answer` is a resolved
response whose `data.answer` field is `answer` (`none` models a
missing/undefined field; the empty string, like `undefined`, is falsy
in the `if (answer)` test), and `err` is a rejected promise. -/
inductive HttpResult where
  | ok (answer : Option String)
  | err
  deriving Repr, DecidableEq

/-- JS `String.prototype.trim`: drop leading and trailing whitespace.
Implemented by structural recursion over the character list so that it
is kernel-reducible (core's `String.trim` is built on `Substring`
functions that are not). -/
def jsTrim (t : String) : String :=
  String.mk (((t.data.dropWhile Char.isWhitespace).reverse.dropWhile
    Char.isWhitespace).reverse)

/-- Does the first character list start with the second? -/
def charsStartWith : List Char → List Char → Bool
  | _, [] => true
  | [], _ :: _ => false
  | c :: cs, p :: ps => c == p && charsStartWith cs ps

/-- JS `String.prototype.startsWith`, by structural recursion over the
character lists (core's `String.startsWith` is built on `Substring`
primitives that are not kernel-reducible). -/
def jsStartsWith (t pre : String) : Bool :=
  charsStartWith t.data pre.data

/-- The mount effect (chat.tsx lines 39-50): read the saved chats and
history map from `localStorage`, install the chats list without any
validation, and when it is non-empty select the first chat and load
its history (default `[]`). -/
def initialLoad (store : Storage) (s : ChatState) : ChatState :=
  let s1 := { s with loadingChats := true, chats := store.chats }
  let s2 :=
    match store.chats with
    | [] => s1
    | c :: _ =>
      { s1 with currentChatId := c.id,
                history := (assocGet store.histories c.id).getD [] }
  { s2 with loadingChats := false }

/-- The persistence effect (chat.tsx lines 52-58), run after every
change of `chats`, `history` or `currentChatId`: store the chats list
under `"chats"`, and store under `"history"` the previously stored map
with the current chat id's entry replaced by the current history. -/
def syncStorage (store : Storage) (s : ChatState) : Storage :=
  { chats := s.chats,
    histories := assocSet store.histories s.currentChatId s.history }

/-- The part of `sendMessage` before the response arrives (chat.tsx
lines 60-91): return unchanged on blank input; otherwise append the
user message, append the one-element history entry `[message]`, clear
the input, create the chat entry when the current id is unknown or
retitle it when its title starts with `"Chat"`, set the loading flag,
and issue the POST.  `now` is `new Date().toISOString()`.  The request
body's `history` is the closed-over pre-call `history` value: the
functional `setHistory` update does not change the `history` variable
the POST body captures. -/
def sendMessagePre (s : ChatState) (now : String) : ChatState × Option Request :=
  if jsTrim s.message = "" then (s, none)
  else
    let q : String := s.message
    let s1 : ChatState := { s with
      messages := s.messages ++ [Message.mk Sender.user q],
      history := s.history ++ [[q]],
      message := "" }
    let s2 : ChatState :=
      if (s.chats.find? (fun c => c.id == s.currentChatId)).isNone then
        { s1 with chats := s1.chats ++ [Chat.mk s.currentChatId q now] }
      else
        { s1 with chats := s1.chats.map (fun c =>
            if c.id == s.currentChatId && jsStartsWith c.title "Chat" then
              { c with title := q }
            else c) }
    ({ s2 with loading := true },
     some ⟨API_BASE_URL ++ "/ai/answer-question", q, s.history⟩)

/-- JS `e[1] = a` on a history entry (chat.tsx line 103).  In the
component flow the entry is always the one-element `[question]`, the
middle case. -/
def setIdxOne (e : List String) (a : String) : List String :=
  match e with
  | [] => [a]
  | [q] => [q, a]
  | q :: _ :: rest => q :: a :: rest

/-- `updated[updated.length - 1][1] = answer` (chat.tsx lines 101-105):
write the answer into index 1 of the last history entry. -/
def setAnswer : List (List String) → String → List (List String)
  | [], _ => []
  | [e], a => [setIdxOne e a]
  | e :: rest, a => e :: setAnswer rest a

/-- The response half of `sendMessage` (chat.tsx lines 93-111): on a
resolved response with a truthy `answer`, append the AI message and
write the answer into the last history entry; on a rejected promise,
log to the console; in either case clear the loading flag (the
`finally` block).  Returns the new state and the console-error lines
emitted. -/
def sendMessageResp (s : ChatState) (r : HttpResult) : ChatState × List String :=
  match r with
  | HttpResult.ok ans =>
    let s1 : ChatState :=
      match ans with
      | some a =>
        if a = "" then s
        else
          { s with messages := s.messages ++ [Message.mk Sender.ai a],
                   history := setAnswer s.history a }
      | none => s
    ({ s1 with loading := false }, [])
  | HttpResult.err => ({ s with loading := false }, ["Failed to fetch answer:"])

/-- A complete `sendMessage` call (chat.tsx lines 60-112) for one
awaited response: the pre-request phase followed by the response
handler.  Returns the final state, the list of HTTP requests issued
during the call, and the console-error lines. -/
def sendMessage (s : ChatState) (now : String) (resp : HttpResult) :
    ChatState × List Request × List String :=
  match sendMessagePre s now with
  | (s1, none) => (s1, [], [])
  | (s1, some req) =>
    let pr := sendMessageResp s1 resp
    (pr.1, [req], pr.2)

/-- `createNewChat` (chat.tsx lines 114-127).  `newChatId` is
`Date.now().toString()`, `now` is `new Date().toISOString()`. -/
def createNewChat (s : ChatState) (newChatId : String) (now : String) : ChatState :=
  { s with chats := s.chats ++ [Chat.mk newChatId "New Chat" now],
           currentChatId := newChatId,
           messages := [],
           history := [] }

/-- The destructuring `([userMsg, aiMsg]) => [{user},{ai}]` of one
stored history entry into the two rendered messages (chat.tsx lines
135-138); a missing component (JS `undefined`) is modelled as `""`. -/
def entryToMessages (e : List String) : List Message :=
  [Message.mk Sender.user (e.getD 0 ""), Message.mk Sender.ai (e.getD 1 "")]

/-- `switchChat` (chat.tsx lines 129-141): select the chat, load its
stored history (or `[]` when none is stored), and rebuild the rendered
messages from the stored pairs (or `[]`). -/
def switchChat (s : ChatState) (store : Storage) (chatId : String) : ChatState :=
  { s with currentChatId := chatId,
           history := (assocGet store.histories chatId).getD [],
           messages :=
             match assocGet store.histories chatId with
             | some h => (h.map entryToMessages).flatten
             | none => [] }

/-- The `groupedChats` reduce (chat.tsx lines 153-158): bucket the
chats, in order, under their month-year display key.  The date-fns
derivation `format(new Date(chat.date), "MMMM yyyy")` is an external
library call and is abstracted as the key function `key`. -/
def groupedChats (key : Chat → String) (chats : List Chat) : List (String × List Chat) :=
  chats.foldl (fun acc chat =>
    assocSet acc (key chat) ((assocGet acc (key chat)).getD [] ++ [chat])) []

/-- The bucket keys in first-occurrence order: the JS object's key
insertion order, hence the `Object.entries` order of `groupedChats`. -/
def firstKeys (key : Chat → String) (chats : List Chat) : List String :=
  chats.foldl (fun ks c => if key c ∈ ks then ks else ks ++ [key c]) []

/-- How many entries of a chats list carry the given id. -/
def countId (chats : List Chat) (i : String) : Nat :=
  (chats.map Chat.id).count i

/-! ### Association-list lemmas -/

theorem assocGet_assocSet_self {β : Type} (l : List (String × β)) (k : String) (v : β) :
    assocGet (assocSet l k v) k = some v := by
  induction l with
  | nil => simp [assocSet, assocGet]
  | cons p rest ih =>
    obtain ⟨k', v'⟩ := p
    by_cases h : k' = k
    · simp [assocSet, assocGet, h]
    · simp [assocSet, assocGet, h, ih]

theorem assocGet_assocSet_ne {β : Type} (l : List (String × β)) (k k' : String) (v : β)
    (h : k' ≠ k) : assocGet (assocSet l k v) k' = assocGet l k' := by
  induction l with
  | nil =>
    simp only [assocSet, assocGet]
    rw [if_neg (fun hh => h hh.symm)]
  | cons p rest ih =>
    obtain ⟨k2, v2⟩ := p
    by_cases h2 : k2 = k
    · subst h2
      simp only [assocSet, if_pos rfl, assocGet]
      rw [if_neg (fun hh => h hh.symm), if_neg (fun hh => h hh.symm)]
    · simp only [assocSet, if_neg h2, assocGet]
      by_cases h3 : k2 = k'
      · rw [if_pos h3, if_pos h3]
      · rw [if_neg h3, if_neg h3, ih]

/-! ### `sendMessage` characterization lemmas -/

theorem sendMessagePre_of_ne (s : ChatState) (now : String) (h : jsTrim s.message ≠ "") :
    (sendMessagePre s now).1.messages = s.messages ++ [Message.mk Sender.user s.message] ∧
    (sendMessagePre s now).1.history = s.history ++ [[s.message]] ∧
    (sendMessagePre s now).1.message = "" ∧
    (sendMessagePre s now).1.currentChatId = s.currentChatId ∧
    (sendMessagePre s now).1.loading = true ∧
    (sendMessagePre s now).2 =
      some (Request.mk (API_BASE_URL ++ "/ai/answer-question") s.message s.history) := by
  unfold sendMessagePre
  rw [if_neg h]
  by_cases hc : (s.chats.find? (fun c => c.id == s.currentChatId)).isNone <;>
    simp [hc]

theorem sendMessage_eq_of_ne (s : ChatState) (now : String) (resp : HttpResult)
    (h : jsTrim s.message ≠ "") :
    sendMessage s now resp =
      ((sendMessageResp (sendMessagePre s now).1 resp).1,
       [Request.mk (API_BASE_URL ++ "/ai/answer-question") s.message s.history],
       (sendMessageResp (sendMessagePre s now).1 resp).2) := by
  have h2 := (sendMessagePre_of_ne s now h).2.2.2.2.2
  unfold sendMessage
  have hpair : sendMessagePre s now = ((sendMessagePre s now).1,
      some (Request.mk (API_BASE_URL ++ "/ai/answer-question") s.message s.history)) := by
    rw [← h2]
  rw [hpair]

theorem sendMessageResp_ok_some (s : ChatState) (a : String) (ha : a ≠ "") :
    sendMessageResp s (HttpResult.ok (some a)) =
      ({ s with messages := s.messages ++ [Message.mk Sender.ai a],
                history := setAnswer s.history a, loading := false }, []) := by
  unfold sendMessageResp
  dsimp only
  rw [if_neg ha]

theorem sendMessageResp_chats (s : ChatState) (r : HttpResult) :
    (sendMessageResp s r).1.chats = s.chats := by
  unfold sendMessageResp
  cases r with
  | ok ans =>
    cases ans with
    | some a => by_cases ha : a = "" <;> simp [ha]
    | none => rfl
  | err => rfl

theorem setAnswer_append (h : List (List String)) (e : List String) (a : String) :
    setAnswer (h ++ [e]) a = h ++ [setIdxOne e a] := by
  induction h with
  | nil => rfl
  | cons x t ih =>
    cases t with
    | nil => rfl
    | cons y u =>
      simp only [List.cons_append] at ih
      show x :: setAnswer (y :: (u ++ [e])) a = x :: y :: (u ++ [setIdxOne e a])
      rw [ih]

/-! ### `groupedChats` lemmas -/

theorem assocGet_keyed {β : Type} (g : String → β) (ks : List String) (k : String) :
    assocGet (ks.map (fun x => (x, g x))) k = if k ∈ ks then some (g k) else none := by
  induction ks with
  | nil => simp [assocGet]
  | cons a t ih =>
    by_cases h : a = k
    · subst h
      simp [assocGet]
    · simp only [List.map_cons, assocGet, if_neg h, ih, List.mem_cons]
      by_cases hk : k ∈ t
      · simp [hk]
      · simp [hk, Ne.symm h]

theorem assocSet_keyed {β : Type} (g : String → β) (ks : List String) (k : String) (v : β)
    (hnd : ks.Nodup) (hk : k ∈ ks) :
    assocSet (ks.map (fun x => (x, g x))) k v =
      ks.map (fun x => (x, if x = k then v else g x)) := by
  induction ks with
  | nil => cases hk
  | cons a t ih =>
    rw [List.nodup_cons] at hnd
    by_cases h : a = k
    · subst h
      rw [List.map_cons, assocSet, if_pos rfl, List.map_cons, if_pos rfl]
      congr 1
      symm
      apply List.map_congr_left
      intro x hx
      rw [if_neg (fun he : x = a => hnd.1 (he ▸ hx))]
    · have hk2 : k ∈ t := by
        rcases List.mem_cons.mp hk with he | he
        · exact absurd he.symm h
        · exact he
      rw [List.map_cons, assocSet, if_neg h, List.map_cons, if_neg h, ih hnd.2 hk2]

theorem assocSet_not_found {β : Type} (l : List (String × β)) (k : String) (v : β)
    (h : assocGet l k = none) : assocSet l k v = l ++ [(k, v)] := by
  induction l with
  | nil => rfl
  | cons p rest ih =>
    obtain ⟨k2, v2⟩ := p
    by_cases h2 : k2 = k
    · rw [assocGet, if_pos h2] at h
      cases h
    · rw [assocGet, if_neg h2] at h
      simp [assocSet, h2, ih h]

theorem mem_keysStep (key : Chat → String) (acc : List String) (c : Chat) (k : String) :
    (k ∈ if key c ∈ acc then acc else acc ++ [key c]) ↔ k ∈ acc ∨ k = key c := by
  by_cases h : key c ∈ acc
  · rw [if_pos h]
    constructor
    · exact Or.inl
    · rintro (hk | hk)
      · exact hk
      · exact hk ▸ h
  · rw [if_neg h]
    simp [List.mem_append]

theorem mem_foldl_keys (key : Chat → String) (l : List Chat) :
    ∀ (acc : List String) (k : String),
      (k ∈ l.foldl (fun ks c => if key c ∈ ks then ks else ks ++ [key c]) acc ↔
        k ∈ acc ∨ ∃ c, c ∈ l ∧ key c = k) := by
  induction l with
  | nil => intro acc k; simp
  | cons c t ih =>
    intro acc k
    rw [List.foldl_cons, ih, mem_keysStep]
    constructor
    · rintro ((hk | hk) | ⟨c2, hc2, hk⟩)
      · exact Or.inl hk
      · exact Or.inr ⟨c, List.mem_cons_self c t, hk.symm⟩
      · exact Or.inr ⟨c2, List.mem_cons_of_mem c hc2, hk⟩
    · rintro (hk | ⟨c2, hc2, hk⟩)
      · exact Or.inl (Or.inl hk)
      · rcases List.mem_cons.mp hc2 with he | he
        · refine Or.inl (Or.inr ?_)
          rw [← hk, he]
        · exact Or.inr ⟨c2, he, hk⟩

theorem mem_firstKeys (key : Chat → String) (l : List Chat) (k : String) :
    k ∈ firstKeys key l ↔ ∃ c, c ∈ l ∧ key c = k := by
  have h := mem_foldl_keys key l [] k
  simpa [firstKeys] using h

theorem foldl_keys_nodup (key : Chat → String) (l : List Chat) :
    ∀ acc : List String, acc.Nodup →
      (l.foldl (fun ks c => if key c ∈ ks then ks else ks ++ [key c]) acc).Nodup := by
  induction l with
  | nil => intro acc h; simpa using h
  | cons c t ih =>
    intro acc h
    rw [List.foldl_cons]
    apply ih
    by_cases hm : key c ∈ acc
    · rw [if_pos hm]
      exact h
    · rw [if_neg hm, List.nodup_append]
      refine ⟨h, List.nodup_singleton _, ?_⟩
      intro x hx hx2
      rw [List.mem_singleton] at hx2
      exact hm (hx2 ▸ hx)

theorem firstKeys_nodup (key : Chat → String) (l : List Chat) : (firstKeys key l).Nodup :=
  foldl_keys_nodup key l [] List.nodup_nil

theorem firstKeys_append_singleton (key : Chat → String) (l : List Chat) (c : Chat) :
    firstKeys key (l ++ [c]) =
      if key c ∈ firstKeys key l then firstKeys key l
      else firstKeys key l ++ [key c] := by
  unfold firstKeys
  rw [List.foldl_append]
  rfl

theorem groupedChats_append_singleton (key : Chat → String) (l : List Chat) (c : Chat) :
    groupedChats key (l ++ [c]) =
      assocSet (groupedChats key l) (key c)
        ((assocGet (groupedChats key l) (key c)).getD [] ++ [c]) := by
  unfold groupedChats
  rw [List.foldl_append]
  rfl

theorem groupedChats_eq_buckets (key : Chat → String) (chats : List Chat) :
    groupedChats key chats =
      (firstKeys key chats).map (fun k => (k, chats.filter (fun c => key c == k))) := by
  induction chats using List.reverseRecOn with
  | nil => rfl
  | append_singleton l c ih =>
    rw [groupedChats_append_singleton, firstKeys_append_singleton, ih, assocGet_keyed]
    by_cases h : key c ∈ firstKeys key l
    · rw [if_pos h, if_pos h, assocSet_keyed _ _ _ _ (firstKeys_nodup key l) h]
      congr 1
      funext x
      by_cases hx : x = key c
      · subst hx
        simp [List.filter_append, List.filter_cons]
      · have hne : (key c == x) = false := by
          rw [beq_eq_false_iff_ne]
          exact fun he => hx he.symm
        simp [if_neg hx, List.filter_append, List.filter_cons, hne]
    · rw [if_neg h, if_neg h, assocSet_not_found]
      · rw [List.map_append]
        congr 1
        · apply List.map_congr_left
          intro x hx
          have hne : (key c == x) = false := by
            rw [beq_eq_false_iff_ne]
            intro he
            apply h
            rw [he]
            exact hx
          simp [List.filter_append, List.filter_cons, hne]
        · have hfe : l.filter (fun cc => key cc == key c) = [] := by
            rw [List.filter_eq_nil_iff]
            intro a ha hkey
            rw [beq_iff_eq] at hkey
            exact h ((mem_firstKeys key l (key c)).mpr ⟨a, ha, hkey⟩)
          simp [List.filter_append, List.filter_cons, hfe]
      · rw [assocGet_keyed, if_neg h]

theorem flatten_assocSet_perm (l : List (String × List Chat)) (k : String) (c : Chat) :
    ((assocSet l k ((assocGet l k).getD [] ++ [c])).map Prod.snd).flatten.Perm
      ((l.map Prod.snd).flatten ++ [c]) := by
  induction l with
  | nil =>
    simp only [assocSet, assocGet, Option.getD_none, List.nil_append, List.map_cons,
      List.map_nil, List.flatten_cons, List.flatten_nil, List.append_nil]
    exact List.Perm.refl _
  | cons p rest ih =>
    obtain ⟨k2, v2⟩ := p
    by_cases h : k2 = k
    · simp only [assocGet, if_pos h, Option.getD_some, assocSet, List.map_cons,
        List.flatten_cons]
      rw [List.append_assoc, List.append_assoc]
      exact List.Perm.append_left v2 List.perm_append_comm
    · simp only [assocGet, if_neg h, assocSet, List.map_cons, List.flatten_cons]
      rw [List.append_assoc]
      exact List.Perm.append_left v2 ih

theorem groupedChats_flatten_perm (key : Chat → String) (chats : List Chat) :
    ((groupedChats key chats).map Prod.snd).flatten.Perm chats := by
  induction chats using List.reverseRecOn with
  | nil => exact List.Perm.refl _
  | append_singleton l c ih =>
    rw [groupedChats_append_singleton]
    exact (flatten_assocSet_perm (groupedChats key l) (key c) c).trans (ih.append_right [c])

/-! ### Counting chat ids -/

theorem countId_append (l1 l2 : List Chat) (i : String) :
    countId (l1 ++ l2) i = countId l1 i + countId l2 i := by
  simp [countId, List.count_append]

theorem countId_retitle (l : List Chat) (cid q i : String) :
    countId (l.map (fun c =>
      if c.id == cid && jsStartsWith c.title "Chat" then { c with title := q } else c)) i =
      countId l i := by
  unfold countId
  rw [List.map_map]
  have hco : (Chat.id ∘ fun c =>
      if c.id == cid && jsStartsWith c.title "Chat" then { c with title := q } else c) =
      Chat.id := by
    funext c
    by_cases hb : (c.id == cid && jsStartsWith c.title "Chat") = true <;>
      simp [Function.comp, hb]
  rw [hco]

theorem countId_sendMessagePre (s : ChatState) (now i : String) :
    countId s.chats i ≤ countId (sendMessagePre s now).1.chats i := by
  unfold sendMessagePre
  by_cases h : jsTrim s.message = ""
  · rw [if_pos h]
  · rw [if_neg h]
    dsimp only
    by_cases hc : (s.chats.find? (fun c => c.id == s.currentChatId)).isNone
    · rw [if_pos hc]
      show countId s.chats i ≤ countId (s.chats ++ [Chat.mk s.currentChatId s.message now]) i
      rw [countId_append]
      exact Nat.le_add_right _ _
    · rw [if_neg hc]
      show countId s.chats i ≤ countId (s.chats.map (fun c =>
        if c.id == s.currentChatId && jsStartsWith c.title "Chat" then
          { c with title := s.message } else c)) i
      rw [countId_retitle]

theorem countId_sendMessage (s : ChatState) (now : String) (resp : HttpResult) (i : String) :
    countId s.chats i ≤ countId (sendMessage s now resp).1.chats i := by
  have hp := countId_sendMessagePre s now i
  unfold sendMessage
  cases hq : sendMessagePre s now with
  | mk s1 r =>
    rw [hq] at hp
    cases r with
    | none => exact hp
    | some req =>
      dsimp only
      rw [sendMessageResp_chats]
      exact hp

/-! ### The claims -/

/-- C1: for every input message whose trimmed text is non-empty, the
synchronous phase of `sendMessage` (chat.tsx lines 60-66) appends a
message with sender `"user"` and text equal to the input to the
visible messages list, appends the one-element entry `[message]` to
the history list, and clears the input field state. -/
theorem sendMessage_appends_user_and_clears_input (s : ChatState) (now : String)
    (h : jsTrim s.message ≠ "") :
    (sendMessagePre s now).1.messages = s.messages ++ [Message.mk Sender.user s.message] ∧
    (sendMessagePre s now).1.history = s.history ++ [[s.message]] ∧
    (sendMessagePre s now).1.message = "" :=
  ⟨(sendMessagePre_of_ne s now h).1, (sendMessagePre_of_ne s now h).2.1,
    (sendMessagePre_of_ne s now h).2.2.1⟩

/-- Witness for C1 at the concrete state with input `"hi"`. -/
theorem sendMessage_appends_user_and_clears_input_witness :
    jsTrim "hi" ≠ "" ∧
    ((sendMessagePre (ChatState.mk [] "hi" [] [] "c1" false false) "d").1.messages =
        [] ++ [Message.mk Sender.user "hi"] ∧
      (sendMessagePre (ChatState.mk [] "hi" [] [] "c1" false false) "d").1.history =
        [] ++ [["hi"]] ∧
      (sendMessagePre (ChatState.mk [] "hi" [] [] "c1" false false) "d").1.message = "") :=
  ⟨by decide,
    sendMessage_appends_user_and_clears_input
      (ChatState.mk [] "hi" [] [] "c1" false false) "d" (by decide)⟩

/-- C2: for every chat id, `switchChat` sets the current chat id to
that id and sets the history state to the array stored under that id
in the localStorage `"history"` map, or to the empty array when no
entry for that id exists (`allHistories[chatId] || []`). -/
theorem switchChat_sets_id_and_history (s : ChatState) (store : Storage) (chatId : String) :
    (switchChat s store chatId).currentChatId = chatId ∧
    (switchChat s store chatId).history = (assocGet store.histories chatId).getD [] :=
  ⟨rfl, rfl⟩

/-- C8: on an input that is empty or whitespace only, `sendMessage`
returns immediately: the whole state is unchanged, no HTTP request is
issued and nothing is logged. -/
theorem sendMessage_blank_input_noop (s : ChatState) (now : String) (resp : HttpResult)
    (h : jsTrim s.message = "") :
    sendMessage s now resp = (s, [], []) := by
  unfold sendMessage sendMessagePre
  rw [if_pos h]

/-- Witness for C8 at the concrete whitespace-only input `"  "`. -/
theorem sendMessage_blank_input_noop_witness :
    jsTrim "  " = "" ∧
    sendMessage (ChatState.mk [] "  " [] [] "c1" false false) "d" HttpResult.err =
      (ChatState.mk [] "  " [] [] "c1" false false, [], []) :=
  ⟨by decide,
    sendMessage_blank_input_noop (ChatState.mk [] "  " [] [] "c1" false false) "d"
      HttpResult.err (by decide)⟩

/-- C4: when the POST fails, `sendMessage` logs `"Failed to fetch
answer:"` to the console, issues exactly one request (no retry),
appends no AI message (the messages list holds exactly the prior
messages plus the user message appended before the request), and the
`finally` block resets the loading flag to `false`. -/
theorem sendMessage_failure_logs_no_retry (s : ChatState) (now : String)
    (h : jsTrim s.message ≠ "") :
    (sendMessage s now HttpResult.err).1.messages =
      s.messages ++ [Message.mk Sender.user s.message] ∧
    (sendMessage s now HttpResult.err).1.loading = false ∧
    (sendMessage s now HttpResult.err).2.1.length = 1 ∧
    (sendMessage s now HttpResult.err).2.2 = ["Failed to fetch answer:"] := by
  rw [sendMessage_eq_of_ne s now HttpResult.err h]
  exact ⟨(sendMessagePre_of_ne s now h).1, rfl, rfl, rfl⟩

/-- Witness for C4 at the concrete state with input `"hi"`. -/
theorem sendMessage_failure_logs_no_retry_witness :
    jsTrim "hi" ≠ "" ∧
    ((sendMessage (ChatState.mk [] "hi" [] [] "c1" true false) "d" HttpResult.err).1.messages =
        [] ++ [Message.mk Sender.user "hi"] ∧
      (sendMessage (ChatState.mk [] "hi" [] [] "c1" true false) "d" HttpResult.err).1.loading =
        false ∧
      (sendMessage (ChatState.mk [] "hi" [] [] "c1" true false) "d" HttpResult.err).2.1.length =
        1 ∧
      (sendMessage (ChatState.mk [] "hi" [] [] "c1" true false) "d" HttpResult.err).2.2 =
        ["Failed to fetch answer:"]) :=
  ⟨by decide,
    sendMessage_failure_logs_no_retry (ChatState.mk [] "hi" [] [] "c1" true false) "d"
      (by decide)⟩

/-- C5: after every change to chats, history or the current chat id,
the persistence effect stores the chats list under `"chats"` and
stores under `"history"` a map whose entry for the current chat id is
the current history array, with entries for all other chat ids
unchanged. -/
theorem syncStorage_persists (store : Storage) (s : ChatState) :
    (syncStorage store s).chats = s.chats ∧
    assocGet (syncStorage store s).histories s.currentChatId = some s.history ∧
    ∀ k, k ≠ s.currentChatId →
      assocGet (syncStorage store s).histories k = assocGet store.histories k :=
  ⟨rfl, assocGet_assocSet_self store.histories s.currentChatId s.history,
    fun k hk => assocGet_assocSet_ne store.histories s.currentChatId k s.history hk⟩

/-- Witness for C5 at a concrete store and state: the other id `"a"`
keeps its stored history. -/
theorem syncStorage_persists_witness :
    ("a" : String) ≠ "b" ∧
    assocGet
        (syncStorage (Storage.mk [] [("a", [["x"]])])
          (ChatState.mk [] "" [["q"]] [] "b" false false)).histories "a" =
      assocGet (Storage.mk ([] : List Chat) [("a", [["x"]])]).histories "a" :=
  ⟨by decide,
    (syncStorage_persists (Storage.mk [] [("a", [["x"]])])
      (ChatState.mk [] "" [["q"]] [] "b" false false)).2.2 "a" (by decide)⟩

/-- C9: when the POST succeeds with a non-empty answer, a message with
sender `"ai"` and text equal to the answer is appended to the messages
list, and the answer is written into position 1 of the last history
entry, so the entry appended for the question becomes the pair
`[question, answer]`. -/
theorem sendMessage_success_appends_answer (s : ChatState) (now a : String)
    (h : jsTrim s.message ≠ "") (ha : a ≠ "") :
    (sendMessage s now (HttpResult.ok (some a))).1.messages =
      s.messages ++ [Message.mk Sender.user s.message, Message.mk Sender.ai a] ∧
    (sendMessage s now (HttpResult.ok (some a))).1.history =
      s.history ++ [[s.message, a]] := by
  rw [sendMessage_eq_of_ne s now (HttpResult.ok (some a)) h,
    sendMessageResp_ok_some (sendMessagePre s now).1 a ha]
  obtain ⟨hm, hh, -, -, -, -⟩ := sendMessagePre_of_ne s now h
  constructor
  · show (sendMessagePre s now).1.messages ++ [Message.mk Sender.ai a] = _
    rw [hm, List.append_assoc]
    rfl
  · show setAnswer (sendMessagePre s now).1.history a = _
    rw [hh, setAnswer_append]
    rfl

/-- Witness for C9 at the concrete input `"hi"` and answer `"a"`. -/
theorem sendMessage_success_appends_answer_witness :
    jsTrim "hi" ≠ "" ∧ ("a" : String) ≠ "" ∧
    ((sendMessage (ChatState.mk [] "hi" [] [] "c1" false false) "d"
          (HttpResult.ok (some "a"))).1.messages =
        [] ++ [Message.mk Sender.user "hi", Message.mk Sender.ai "a"] ∧
      (sendMessage (ChatState.mk [] "hi" [] [] "c1" false false) "d"
          (HttpResult.ok (some "a"))).1.history =
        [] ++ [["hi", "a"]]) :=
  ⟨by decide, by decide,
    sendMessage_success_appends_answer (ChatState.mk [] "hi" [] [] "c1" false false) "d" "a"
      (by decide) (by decide)⟩

/-- C10 (amended): the `history` field of the POST body is the history
value from before the current question's entry was appended: the
request carries exactly `s.history`, and the state's history after the
call is that value with the new entry `[question]` appended, so the
request's history never contains the entry appended by this call.  (It
may still contain the same question text from an earlier call; see the
counterexample.) -/
theorem request_history_is_preappend (s : ChatState) (now : String)
    (h : jsTrim s.message ≠ "") :
    (sendMessagePre s now).2 =
      some (Request.mk (API_BASE_URL ++ "/ai/answer-question") s.message s.history) ∧
    (sendMessagePre s now).1.history = s.history ++ [[s.message]] :=
  ⟨(sendMessagePre_of_ne s now h).2.2.2.2.2, (sendMessagePre_of_ne s now h).2.1⟩

/-- Witness for C10 at the concrete state with input `"hi"` and a
non-trivial prior history. -/
theorem request_history_is_preappend_witness :
    jsTrim "hi" ≠ "" ∧
    ((sendMessagePre (ChatState.mk [] "hi" [["old", "ans"]] [] "c1" false false) "d").2 =
        some (Request.mk (API_BASE_URL ++ "/ai/answer-question") "hi" [["old", "ans"]]) ∧
      (sendMessagePre (ChatState.mk [] "hi" [["old", "ans"]] [] "c1" false false) "d").1.history =
        [["old", "ans"]] ++ [["hi"]]) :=
  ⟨by decide,
    request_history_is_preappend (ChatState.mk [] "hi" [["old", "ans"]] [] "c1" false false) "d"
      (by decide)⟩

/-- Counterexample to C10 as stated: when the same question was asked
in an earlier call (e.g. after a failed POST left `[["hi"]]` in the
history), the request body's history does contain the question being
asked.  The state is reachable: ask `"hi"`, let the POST fail, type
`"hi"` again. -/
theorem request_history_contains_question :
    (sendMessagePre (ChatState.mk [] "hi" [["hi"]] [] "c1" false false) "d").2 =
      some (Request.mk (API_BASE_URL ++ "/ai/answer-question") "hi" [["hi"]]) ∧
    "hi" ∈ List.flatten [["hi"]] := by decide

/-- C3 (amended): the page issues a single kind of REST call: the POST
of the question (with the prior history in the body) to
`/ai/answer-question` inside `sendMessage`.  No other operation of the
page issues an HTTP request — `initialLoad`, `switchChat`,
`createNewChat` and `syncStorage` read and write `localStorage` only,
and their embeddings have no request output — and in particular
history is never fetched over REST. -/
theorem rest_calls_single_post (s : ChatState) (now : String) (resp : HttpResult) :
    (sendMessage s now resp).2.1 = [] ∨
    (sendMessage s now resp).2.1 =
      [Request.mk (API_BASE_URL ++ "/ai/answer-question") s.message s.history] := by
  by_cases h : jsTrim s.message = ""
  · left
    rw [sendMessage_blank_input_noop s now resp h]
  · right
    rw [sendMessage_eq_of_ne s now resp h]

/-- Counterexample to C3 as stated: a complete interaction — load from
storage, switch chat, send one message — issues exactly one HTTP
request, not two; the list of requests issued by a `sendMessage` call
on a concrete state has length `1`, and history loading
(`initialLoad`, `switchChat`) produces states without issuing any
request. -/
theorem rest_calls_not_two :
    (sendMessage
        (switchChat (initialLoad (Storage.mk [Chat.mk "c1" "t" "x"] [("c1", [])])
            (ChatState.mk [] "" [] [] "" false true))
          (Storage.mk [Chat.mk "c1" "t" "x"] [("c1", [])]) "c1"
        |> fun st => { st with message := "hi" }) "d" (HttpResult.ok (some "a"))).2.1.length =
      1 := by decide

/-- C7: no uniqueness or ordering invariant is enforced on chats.  The
initial load accepts a stored chats list holding two entries with the
same id `"a"` unchanged (first conjunct, a concrete store; last
conjunct, in general the loaded list is the stored list verbatim), and
no subsequent operation detects or removes a duplicate: `sendMessage`
and `createNewChat` never decrease the number of entries carrying any
id, and `switchChat` leaves the chats list untouched. -/
theorem no_duplicate_id_validation :
    countId (initialLoad
        (Storage.mk [Chat.mk "a" "t1" "2024-01-05", Chat.mk "a" "t2" "2024-02-06"] [])
        (ChatState.mk [] "" [] [] "" false false)).chats "a" = 2 ∧
    (∀ (s : ChatState) (now : String) (resp : HttpResult) (i : String),
      countId s.chats i ≤ countId (sendMessage s now resp).1.chats i) ∧
    (∀ (s : ChatState) (newChatId now i : String),
      countId s.chats i ≤ countId (createNewChat s newChatId now).chats i) ∧
    (∀ (s : ChatState) (store : Storage) (chatId : String),
      (switchChat s store chatId).chats = s.chats) ∧
    (∀ (store : Storage) (s : ChatState), (initialLoad store s).chats = store.chats) := by
  refine ⟨by decide, countId_sendMessage, ?_, fun s store chatId => rfl, ?_⟩
  · intro s newChatId now i
    show countId s.chats i ≤ countId (s.chats ++ [Chat.mk newChatId "New Chat" now]) i
    rw [countId_append]
    exact Nat.le_add_right _ _
  · intro store s
    obtain ⟨sc, sh⟩ := store
    cases sc <;> rfl

/-- C6: for every chats list, the display grouping places each chat in
exactly one bucket, keyed by the month-year string derived from its
date (the date-fns `format(new Date(chat.date), "MMMM yyyy")` call,
abstracted as `key` since date-fns is an external library).  The first
conjunct characterizes the grouping completely: the buckets are keyed
by the distinct keys in first-occurrence order, and the bucket for
key `k` is exactly the sublist of chats whose key is `k`, in their
original relative order — so a chat appears in the bucket of its own
key and in no other.  The second conjunct states that the
concatenation of all buckets is a permutation of the chats list: the
union of the buckets is the chats list. -/
theorem groupedChats_buckets_spec (key : Chat → String) (chats : List Chat) :
    groupedChats key chats =
      (firstKeys key chats).map (fun k => (k, chats.filter (fun c => key c == k))) ∧
    ((groupedChats key chats).map Prod.snd).flatten.Perm chats :=
  ⟨groupedChats_eq_buckets key chats, groupedChats_flatten_perm key chats⟩

end AiLawyer
